import Mathlib

/-!
Verification of the FSM-to-DOT generator core (`NodeRed_FSM.py`).

The program loads a JSON document describing a Node-RED finite state
machine, validates its structure (`NodeRed_FSM.validate`), and renders a
Graphviz DOT file (`NodeRed_FSM.buildDotFile`).  This file shallowly
embeds that core: JSON values become an inductive type, Python dicts
become association lists in insertion order, and the Python operations
that can raise (`in` on a non-container, subscripting, attribute access,
string concatenation with a non-string, writing the output file) return
`Except PyErr`.
-/

/-- A JSON value as produced by Python's `json.loads`: objects keep
insertion order, so they are association lists.  Numbers are modelled as
integers (the repository's schema never uses fractional numbers). -/
inductive Json where
  | null : Json
  | bool (b : Bool) : Json
  | num (n : Int) : Json
  | str (s : String) : Json
  | arr (elems : List Json) : Json
  | obj (entries : List (String × Json)) : Json
deriving Repr

mutual

/-- Decidable equality for `Json` (the nested lists prevent deriving it). -/
def Json.decEq : (a b : Json) → Decidable (a = b)
  | .null, .null => isTrue rfl
  | .bool a, .bool b =>
    if h : a = b then isTrue (by rw [h]) else isFalse (by simp [h])
  | .num a, .num b =>
    if h : a = b then isTrue (by rw [h]) else isFalse (by simp [h])
  | .str a, .str b =>
    if h : a = b then isTrue (by rw [h]) else isFalse (by simp [h])
  | .arr a, .arr b =>
    match Json.decEqList a b with
    | isTrue h => isTrue (by rw [h])
    | isFalse h => isFalse (by simp [h])
  | .obj a, .obj b =>
    match Json.decEqObj a b with
    | isTrue h => isTrue (by rw [h])
    | isFalse h => isFalse (by simp [h])
  | .null, .bool _ | .null, .num _ | .null, .str _ | .null, .arr _ | .null, .obj _
  | .bool _, .null | .bool _, .num _ | .bool _, .str _ | .bool _, .arr _ | .bool _, .obj _
  | .num _, .null | .num _, .bool _ | .num _, .str _ | .num _, .arr _ | .num _, .obj _
  | .str _, .null | .str _, .bool _ | .str _, .num _ | .str _, .arr _ | .str _, .obj _
  | .arr _, .null | .arr _, .bool _ | .arr _, .num _ | .arr _, .str _ | .arr _, .obj _
  | .obj _, .null | .obj _, .bool _ | .obj _, .num _ | .obj _, .str _ | .obj _, .arr _ =>
    isFalse (by simp)

/-- Decidable equality for lists of `Json`. -/
def Json.decEqList : (a b : List Json) → Decidable (a = b)
  | [], [] => isTrue rfl
  | [], _ :: _ => isFalse (by simp)
  | _ :: _, [] => isFalse (by simp)
  | x :: xs, y :: ys =>
    match Json.decEq x y, Json.decEqList xs ys with
    | isTrue h1, isTrue h2 => isTrue (by rw [h1, h2])
    | isFalse h1, _ => isFalse (by simp [h1])
    | _, isFalse h2 => isFalse (by simp [h2])

/-- Decidable equality for `Json` object entry lists. -/
def Json.decEqObj : (a b : List (String × Json)) → Decidable (a = b)
  | [], [] => isTrue rfl
  | [], _ :: _ => isFalse (by simp)
  | _ :: _, [] => isFalse (by simp)
  | (k1, v1) :: xs, (k2, v2) :: ys =>
    if hk : k1 = k2 then
      match Json.decEq v1 v2, Json.decEqObj xs ys with
      | isTrue h1, isTrue h2 => isTrue (by rw [hk, h1, h2])
      | isFalse h1, _ => isFalse (by simp [h1])
      | _, isFalse h2 => isFalse (by simp [h2])
    else isFalse (by simp [hk])

end

instance : DecidableEq Json := Json.decEq

instance {ε α : Type} [DecidableEq ε] [DecidableEq α] : DecidableEq (Except ε α)
  | .ok a, .ok b => if h : a = b then isTrue (by rw [h]) else isFalse (by simp [h])
  | .error a, .error b => if h : a = b then isTrue (by rw [h]) else isFalse (by simp [h])
  | .ok _, .error _ => isFalse (by simp)
  | .error _, .ok _ => isFalse (by simp)

/-- Errors a Python expression in the embedded code can raise. -/
inductive PyErr where
  | typeError : PyErr
  | keyError : PyErr
  | attributeError : PyErr
  | writeError : PyErr
deriving Repr, DecidableEq

/-- Key membership of a Python dict (`k in d` for a dict `d`). -/
def keyMem (entries : List (String × Json)) (k : String) : Bool :=
  entries.any (fun p => p.1 == k)

/-- First-match lookup in a Python dict rendered as an association list. -/
def lookup' (entries : List (String × Json)) (k : String) : Option Json :=
  (entries.find? (fun p => p.1 == k)).map (fun p => p.2)

/-- Python's substring test `pat in s` for strings. -/
def strContains (s pat : String) : Bool :=
  s.data.tails.any (fun t => pat.data.isPrefixOf t)

/-- Python's `==` between a JSON value and a string: only equal strings
compare equal (numbers, booleans, `None`, lists and dicts never equal a
string). -/
def pyEqStr (v : Json) (k : String) : Bool :=
  match v with
  | .str s => s == k
  | _ => false

/-- Python's `key in x` for a string `key`: key membership for dicts,
element membership for lists, substring test for strings, and a
`TypeError` for non-container values (`int`, `bool`, `None`). -/
def pyContains (x : Json) (key : String) : Except PyErr Bool :=
  match x with
  | .obj entries => .ok (keyMem entries key)
  | .arr elems => .ok (elems.any (fun e => pyEqStr e key))
  | .str s => .ok (strContains s key)
  | _ => .error .typeError

/-- Python's `x[key]` for a string `key`: dict lookup (raising `KeyError`
when the key is absent); every other value raises `TypeError` (strings
and lists are only subscriptable by integers). -/
def pySubscript (x : Json) (key : String) : Except PyErr Json :=
  match x with
  | .obj entries =>
    match lookup' entries key with
    | some v => .ok v
    | none => .error .keyError
  | _ => .error .typeError

/-- Python's `v in d` for a dict `d` with string keys and an arbitrary
JSON value `v`: lists and dicts are unhashable and raise `TypeError`;
hashable non-strings are simply not found. -/
def pyDictMem (entries : List (String × Json)) (v : Json) : Except PyErr Bool :=
  match v with
  | .arr _ => .error .typeError
  | .obj _ => .error .typeError
  | .str s => .ok (keyMem entries s)
  | _ => .ok false

/-- Python's `v in ks` for a set of strings `ks`: lists and dicts are
unhashable and raise `TypeError`; hashable non-strings are not found. -/
def pySetMem (keys : List String) (v : Json) : Except PyErr Bool :=
  match v with
  | .arr _ => .error .typeError
  | .obj _ => .error .typeError
  | .str s => .ok (keys.contains s)
  | _ => .ok false

/-- Python's `str()` of the JSON values that can reach an f-string in
`validate` (unhashable values raise before formatting). -/
def pyStr (v : Json) : String :=
  match v with
  | .str s => s
  | .num n => toString n
  | .bool true => "True"
  | .bool false => "False"
  | .null => "None"
  | .arr _ => ""
  | .obj _ => ""

/-- Error text of `NodeRed_FSM.validate` line 84. -/
def errMissingState : String := "Missing top-level key: 'state'"

/-- Error text of `NodeRed_FSM.validate` line 86. -/
def errMissingTrans : String := "Missing top-level key: 'transitions'"

/-- Error text of `NodeRed_FSM.validate` line 93. -/
def errStateMissingStatus : String := "'state' object is missing 'status' key"

/-- Error text of `NodeRed_FSM.validate` line 98. -/
def errTransNonEmpty : String := "'transitions' must be a non-empty object"

/-- Error text of `NodeRed_FSM.validate` line 104. -/
def errTriggersNotObject (src : String) : String :=
  "Transitions for state '" ++ src ++ "' must be an object"

/-- Error text of `NodeRed_FSM.validate` line 108. -/
def errTriggerMissingStatus (src trig : String) : String :=
  "Transition '" ++ src ++ "' -> '" ++ trig ++ "' is missing 'status' key"

/-- Error text of `NodeRed_FSM.validate` line 114. -/
def errInitialNotFound (initial : Json) : String :=
  "Initial state '" ++ pyStr initial ++ "' not found in transitions"

/-- Error text of `NodeRed_FSM.validate` line 125. -/
def errTargetNotDefined (target : Json) (src trig : String) : String :=
  "Target state '" ++ pyStr target ++ "' (from '" ++ src ++ "' via '" ++
    trig ++ "') is not defined in transitions"

/-- Line 107 of `validate`: the shape check of one trigger record. -/
def shapeCheckOne (src trig : String) (td : Json) : List String :=
  match td with
  | .obj tde => if keyMem tde "status" then [] else [errTriggerMissingStatus src trig]
  | _ => [errTriggerMissingStatus src trig]

/-- Lines 106-108 of `validate`: one error per trigger of one source state
whose record is not a dict or lacks a `status` key. -/
def innerShapeErrors (src : String) : List (String × Json) → List String
  | [] => []
  | (trig, td) :: rest => shapeCheckOne src trig td ++ innerShapeErrors src rest

/-- Lines 103-108 of `validate`: one source state's shape errors. -/
def shapeCheckSource (src : String) (trigs : Json) : List String :=
  match trigs with
  | .obj te => innerShapeErrors src te
  | _ => [errTriggersNotObject src]

/-- Lines 102-108 of `validate`: the per-transition shape errors, in
iteration order over `transitions`. -/
def shapeErrors : List (String × Json) → List String
  | [] => []
  | (src, trigs) :: rest => shapeCheckSource src trigs ++ shapeErrors rest

/-- Lines 111-114 of `validate`: the initial-state check, run only when
`state` has a `status` key.  Membership of the initial value in the
`transitions` dict raises `TypeError` when the value is unhashable. -/
def initialErrors (state : Json) (hasStatus : Bool) (ts : List (String × Json)) :
    Except PyErr (List String) :=
  if hasStatus then
    match pySubscript state "status" with
    | .error e => .error e
    | .ok initial =>
      match pyDictMem ts initial with
      | .error e => .error e
      | .ok true => .ok []
      | .ok false => .ok [errInitialNotFound initial]
  else .ok []

/-- Error collection in a loop that can raise: the first exception wins,
otherwise the error lists append. -/
def exceptApp (x y : Except PyErr (List String)) : Except PyErr (List String) :=
  match x, y with
  | .error e, _ => .error e
  | .ok _, .error e => .error e
  | .ok l, .ok r => .ok (l ++ r)

/-- Lines 122-125 of `validate`: the target check of one trigger record
(skipped when the record is not a dict or lacks `status`). -/
def targetCheckOne (keys : List String) (src trig : String) (td : Json) :
    Except PyErr (List String) :=
  match td with
  | .obj tde =>
    match lookup' tde "status" with
    | some target =>
      match pySetMem keys target with
      | .error e => .error e
      | .ok true => .ok []
      | .ok false => .ok [errTargetNotDefined target src trig]
    | none => .ok []
  | _ => .ok []

/-- Lines 121-125 of `validate`: target checks for the triggers of one
source state. -/
def targetTriggerErrors (keys : List String) (src : String) :
    List (String × Json) → Except PyErr (List String)
  | [] => .ok []
  | (trig, td) :: rest =>
    exceptApp (targetCheckOne keys src trig td) (targetTriggerErrors keys src rest)

/-- Lines 118-120 of `validate`: one source state's contribution to the
referential-integrity pass (non-dict trigger maps are skipped). -/
def targetCheckSource (keys : List String) (src : String) (trigs : Json) :
    Except PyErr (List String) :=
  match trigs with
  | .obj te => targetTriggerErrors keys src te
  | _ => .ok []

/-- Lines 117-125 of `validate`: the referential-integrity pass over all
source states. -/
def targetErrorsAux (keys : List String) : List (String × Json) → Except PyErr (List String)
  | [] => .ok []
  | (src, trigs) :: rest =>
    exceptApp (targetCheckSource keys src trigs) (targetErrorsAux keys rest)

/-- Lines 116-125 of `validate`: `defined_states = set(transitions.keys())`
followed by the target checks. -/
def targetErrors (ts : List (String × Json)) : Except PyErr (List String) :=
  targetErrorsAux (ts.map (fun p => p.1)) ts

/-- Lines 90-127 of `validate`: the checks that run once both top-level
keys are present. -/
def validateBody (d : Json) : Except PyErr (List String) :=
  match pySubscript d "state" with
  | .error e => .error e
  | .ok state =>
    match pyContains state "status" with
    | .error e => .error e
    | .ok hasStatus =>
      let errs1 : List String := if hasStatus then [] else [errStateMissingStatus]
      match pySubscript d "transitions" with
      | .error e => .error e
      | .ok transitions =>
        match transitions with
        | .obj ts =>
          if ts.isEmpty then .ok (errs1 ++ [errTransNonEmpty])
          else
            match initialErrors state hasStatus ts with
            | .error e => .error e
            | .ok errs3 =>
              match targetErrors ts with
              | .error e => .error e
              | .ok errs4 => .ok (errs1 ++ shapeErrors ts ++ errs3 ++ errs4)
        | _ => .ok (errs1 ++ [errTransNonEmpty])

/-- `NodeRed_FSM.validate` (lines 69-127): returns the collected error
strings, or the Python exception the method raises. -/
def validate (d : Json) : Except PyErr (List String) :=
  match pyContains d "state" with
  | .error e => .error e
  | .ok hasState =>
    match pyContains d "transitions" with
    | .error e => .error e
    | .ok hasTrans =>
      if hasState && hasTrans then validateBody d
      else .ok ((if hasState then [] else [errMissingState]) ++
                (if hasTrans then [] else [errMissingTrans]))

/-- One past the index of the last occurrence of `c` (Python `p.rfind(c) + 1`),
`0` when `c` does not occur. -/
def lastCharEnd (c : Char) : List Char → Nat
  | [] => 0
  | x :: rest =>
    let r := lastCharEnd c rest
    if r > 0 then r + 1 else if x = c then 1 else 0

/-- `os.path.dirname` for POSIX paths: the text before the last `/`, with
trailing slashes stripped unless the head is all slashes. -/
def osPathDirname (p : String) : String :=
  let head := p.data.take (lastCharEnd '/' p.data)
  if head.isEmpty || head.all (fun c => c = '/') then String.mk head
  else String.mk ((head.reverse.dropWhile (fun c => c = '/')).reverse)

/-- `os.path.basename` for POSIX paths: the text after the last `/`. -/
def osPathBasename (p : String) : String :=
  String.mk (p.data.drop (lastCharEnd '/' p.data))

/-- Python `s.startswith(pre)`. -/
def strStartsWith (s pre : String) : Bool := pre.data.isPrefixOf s.data

/-- Python `s.endswith(suf)`. -/
def strEndsWith (s suf : String) : Bool := suf.data.isSuffixOf s.data

/-- `os.path.join` for POSIX paths, two arguments. -/
def osPathJoin (a b : String) : String :=
  if strStartsWith b "/" then b
  else if a = "" || strEndsWith a "/" then a ++ b
  else a ++ "/" ++ b

/-- `os.path.splitext` for POSIX paths: split at the last dot when it lies
after the last slash and the basename is not all dots up to it. -/
def osPathSplitext (p : String) : String × String :=
  let l := p.data
  let sEnd := lastCharEnd '/' l
  let dEnd := lastCharEnd '.' l
  if dEnd > sEnd && ((l.drop sEnd).take (dEnd - 1 - sEnd)).any (fun c => c != '.') then
    (String.mk (l.take (dEnd - 1)), String.mk (l.drop (dEnd - 1)))
  else (p, "")

example : osPathDirname "a/b/c.json" = "a/b" := by decide
example : osPathDirname "c.json" = "" := by decide
example : osPathBasename "a/b/c.json" = "c.json" := by decide
example : osPathJoin "a/b" "f.dot" = "a/b/f.dot" := by decide
example : osPathJoin "" "f.dot" = "f.dot" := by decide
example : osPathSplitext "a/b.dot" = ("a/b", ".dot") := by decide
example : osPathSplitext "a/.bashrc" = ("a/.bashrc", "") := by decide

/-- The state of a `NodeRed_FSM` object (its `__init__` fields).
`output_file_path` is `none` for Python `None`. -/
structure FSMObj where
  name : String
  FSM_as_Dict : Json
  input_file_path : String
  output_file_path : Option String
  dotFileName : String
deriving Repr, DecidableEq

/-- The strings `datetime.now()` is formatted to in `buildDotFile`:
`%Y%m%d`, `%H%M%S`, `%d/%m/%Y` and `%H:%M:%S`. -/
structure Now where
  ymd : String
  hms6 : String
  dmy : String
  hms : String
deriving Repr, DecidableEq

/-- `NodeRed_FSM.getDotFileName` (lines 146-153). -/
def getDotFileName (o : FSMObj) : String := o.dotFileName

/-- The `validate` method performs no assignment to `self`, so its embedding
returns the object unchanged next to the value `validate` computes. -/
def validateM (o : FSMObj) : FSMObj × Except PyErr (List String) :=
  (o, validate o.FSM_as_Dict)

/-- Python truthiness of `self.output_file_path` (line 178): `None` and the
empty string are falsy. -/
def pyTruthyStrOpt : Option String → Bool
  | none => false
  | some s => s != ""

/-- Lines 181-184: the auto-generated output path
`os.path.join(dirname(input), name + "_" + date + ".dot")`. -/
def autoDotFileName (o : FSMObj) (now : Now) : String :=
  osPathJoin (osPathDirname o.input_file_path) (o.name ++ "_" ++ now.ymd ++ ".dot")

/-- Lines 178-184: the resolved output path. -/
def resolvedDotFileName (o : FSMObj) (now : Now) : String :=
  if pyTruthyStrOpt o.output_file_path then o.output_file_path.getD ""
  else autoDotFileName o now

/-- One DOT edge statement as concatenated at line 190 (with its leading
newline). -/
def mkEdgeStmt (src tgt trig : String) : String :=
  "\n" ++ src ++ " -> " ++ tgt ++ " [label = \"" ++ trig ++ "\"];"

/-- Lines 189-190: the edge statements of one source state, in order.
`v2["status"]` raises for a record that is not a dict or lacks the key,
and concatenating a non-string target raises `TypeError`. -/
def innerEdges (src : String) : List (String × Json) → Except PyErr String
  | [] => .ok ""
  | (trig, td) :: rest =>
    match pySubscript td "status" with
    | .error e => .error e
    | .ok v =>
      match v with
      | .str tgt =>
        match innerEdges src rest with
        | .error e => .error e
        | .ok r => .ok (mkEdgeStmt src tgt trig ++ r)
      | _ => .error .typeError

/-- Lines 187-190: the full transitions text.  `v1.items()` raises
`AttributeError` when a source state's trigger map is not a dict. -/
def edgeString : List (String × Json) → Except PyErr String
  | [] => .ok ""
  | (src, trigs) :: rest =>
    match trigs with
    | .obj te =>
      match innerEdges src te with
      | .error e => .error e
      | .ok e1 =>
        match edgeString rest with
        | .error e => .error e
        | .ok r => .ok (e1 ++ r)
    | _ => .error .attributeError

/-- `PROGRAM_NAME` (line 18). -/
def programName : String := "makeDotFile"

/-- Line 195: the title line of the header. -/
def mkTitle (name : String) : String :=
  name ++ ": script for rendering FSM diagram in Graphviz (.dot format)"

/-- Line 200: the generation stamp. -/
def mkVersionInfo (hms dmy : String) : String :=
  "Generated by " ++ programName ++ " " ++ hms ++ " on " ++ dmy

/-- Lines 211-217: the header comment block. -/
def mkFileHeader (name hms dmy sourceFile : String) (stateCount transCount : Nat)
    (initialState : String) : String :=
  "\n" ++ mkTitle name ++ "\n" ++ "Author: " ++ "Peter Nussey" ++ "\n" ++
  mkVersionInfo hms dmy ++ "\n" ++ "Source: " ++ sourceFile ++ "\n" ++
  "States: " ++ toString stateCount ++ "  |  Transitions: " ++ toString transCount ++ "\n" ++
  "Initial state: " ++ initialState ++ "\n"

/-- Line 205: `sum(len(v) for v in transitions_dict.values() if isinstance(v, dict))`. -/
def transitionCount (ts : List (String × Json)) : Nat :=
  (ts.map (fun p => match p.2 with | .obj te => te.length | _ => 0)).sum

/-- Lines 206 and 217: `FSM_as_Dict["state"].get("status", "unknown")`,
then concatenated into the header (a non-string raises `TypeError`, a
non-dict `state` raises `AttributeError` at `.get`). -/
def initialStateDisplay (state : Json) : Except PyErr String :=
  match state with
  | .obj st =>
    match lookup' st "status" with
    | some (.str s) => .ok s
    | some _ => .error .typeError
    | none => .ok "unknown"
  | _ => .error .attributeError

/-- Line 209: the descriptive `dot` command string (the `\\"` in the Python
source is a backslash followed by a quote). -/
def mkDotCommand (dotName pdfName : String) : String :=
  "dot -Tpdf \\\"" ++ dotName ++ "\\\" -o \\\"" ++ pdfName ++ "\\\""

/-- Line 222: `user_notes.replace(Char 34, backslash-quote)` on the
character list of the notes. -/
def escapeQuotesL : List Char → List Char
  | [] => []
  | c :: rest => (if c = '"' then ['\\', '"'] else [c]) ++ escapeQuotesL rest

/-- Line 222 on strings. -/
def escapeQuotes (s : String) : String := String.mk (escapeQuotesL s.data)

/-- Lines 220-223: the diagram label. -/
def mkLabelContent (fileHeader dotCommand notes : String) : String :=
  let base := fileHeader ++ dotCommand ++ "\n"
  if notes != "" then base ++ "---" ++ "\n" ++ escapeQuotes notes ++ "\n" else base

/-- Lines 225-228: the fixed DOT preamble. -/
def layoutInfo : String :=
  "digraph finite_state_machine \x7b\n\tnode [fontname=\"Helvetica,Arial,sans-serif\", fontcolor=blue, fontsize=7]\n\tedge [fontname=\"Times-Italic\", fontcolor=red, fontstyle=italic, fontsize=7, arrowsize=0.5]\n\trankdir=LR;"

/-- Line 230: the label footer. -/
def mkFooter (labelContent : String) : String :=
  "fontsize=8\nlabel = \"" ++ labelContent ++ "\""

/-- Line 234: the text written to the `.dot` file. -/
def mkContent (fileHeader transitions labelContent : String) : String :=
  "/*" ++ fileHeader ++ "*/" ++ "\n" ++ layoutInfo ++ "\n" ++ transitions ++ "\n" ++
  mkFooter labelContent ++ "\n\x7d"

/-- Lines 186-230 of `buildDotFile`: the text the method writes, or the
exception its computation raises. -/
def dotContent (o : FSMObj) (now : Now) (user_notes : String) : Except PyErr String :=
  let dfn := resolvedDotFileName o now
  match pySubscript o.FSM_as_Dict "transitions" with
  | .error e => .error e
  | .ok transJson =>
    match transJson with
    | .obj ts =>
      match edgeString ts with
      | .error e => .error e
      | .ok transitions =>
        match pySubscript o.FSM_as_Dict "state" with
        | .error e => .error e
        | .ok state =>
          match initialStateDisplay state with
          | .error e => .error e
          | .ok initial =>
            let sourceFile := osPathBasename o.input_file_path
            let pdfFilePath := (osPathSplitext dfn).1 ++ ".pdf"
            let fileHeader := mkFileHeader o.name now.hms now.dmy sourceFile
              ts.length (transitionCount ts) initial
            .ok (mkContent fileHeader transitions
              (mkLabelContent fileHeader (mkDotCommand dfn pdfFilePath) user_notes))
    | _ => .error .attributeError

/-- `NodeRed_FSM.buildDotFile` (lines 155-236): sets `dotFileName` to the
resolved path first (lines 178-184), then computes the file text and
writes it.  `writeOk` is whether the `open`/`write` at lines 233-234
succeeds; when it fails the method raises after the field was already
assigned, which the pair captures: the first component is the object as
the method leaves it, the second the written text or the exception. -/
def buildDotFile (o : FSMObj) (now : Now) (user_notes : String) (writeOk : Bool) :
    FSMObj × Except PyErr String :=
  let o' := { o with dotFileName := resolvedDotFileName o now }
  (o', match dotContent o now user_notes with
       | .error e => .error e
       | .ok content => if writeOk then .ok content else .error .writeError)

/-- A JSON value that is not a non-empty dict (the condition of line 97). -/
def notNonEmptyDict : Json → Bool
  | .obj l => l.isEmpty
  | _ => true

/-- A Python container for the `in` operator: dict, list or string. -/
def isContainer : Json → Bool
  | .obj _ => true
  | .arr _ => true
  | .str _ => true
  | _ => false

/-- Modelled from the spec: one transition record of §3's data model and
invariants, `\x7bstatus: target\x7d` with the target a key of `transitions`. -/
def soundTrigger (keys : List String) (td : Json) : Bool :=
  match td with
  | .obj tde =>
    match lookup' tde "status" with
    | some (.str t) => keys.contains t
    | _ => false
  | _ => false

/-- Modelled from the spec: §3's structural soundness.  A document with the
two required top-level fields, `state` an object carrying a `status` field
naming a key of `transitions`, `transitions` a non-empty mapping whose
trigger records each carry a `status` naming a key of `transitions`. -/
def structurallySound (d : Json) : Bool :=
  match d with
  | .obj entries =>
    match lookup' entries "state", lookup' entries "transitions" with
    | some (.obj st), some (.obj ts) =>
      let keys := ts.map (fun p => p.1)
      (match lookup' st "status" with
       | some (.str s0) => keys.contains s0
       | _ => false)
      && !ts.isEmpty
      && ts.all (fun p => match p.2 with
           | .obj te => te.all (fun q => soundTrigger keys q.2)
           | _ => false)
    | _, _ => false
  | _ => false

/-- The lines of a character list, splitting at every newline. -/
def splitLines : List Char → List (List Char)
  | [] => [[]]
  | c :: rest =>
    match splitLines rest with
    | [] => [[]]
    | l :: ls => if c = '\n' then [] :: l :: ls else (c :: l) :: ls

/-- Whether `pat` occurs as a contiguous run inside a character list. -/
def isInfixB (pat : List Char) : List Char → Bool
  | [] => pat.isEmpty
  | c :: rest => pat.isPrefixOf (c :: rest) || isInfixB pat rest

/-- The two-character DOT edge arrow. -/
def arrowL : List Char := ['-', '>']

/-- Whether a line contains the edge arrow. -/
def hasArrow (l : List Char) : Bool := isInfixB arrowL l

/-- How many lines of a string contain the `->` arrow. -/
def arrowLineCount (s : String) : Nat :=
  ((splitLines s.data).filter hasArrow).length

/-- Unescaped double quotes of a character list: quotes preceded by an even
run of backslashes.  `esc` records whether the scan stands right after an
odd run of backslashes. -/
def uqCount (esc : Bool) : List Char → Nat
  | [] => 0
  | c :: rest =>
    if c = '\\' then uqCount (!esc) rest
    else if c = '"' then (if esc then 0 else 1) + uqCount false rest
    else uqCount false rest

/-- Unescaped double quotes of a string. -/
def unescapedQuoteCount (s : String) : Nat := uqCount false s.data

/-- The backslash-parity state after scanning a character list. -/
def escState (esc : Bool) : List Char → Bool
  | [] => esc
  | c :: rest => escState (if c = '\\' then !esc else false) rest

example : validate (Json.obj [("state", Json.obj [("status", Json.str "idle")]),
    ("transitions", Json.obj
      [("idle", Json.obj [("start", Json.obj [("status", Json.str "running")])]),
       ("running", Json.obj [("stop", Json.obj [("status", Json.str "idle")])])])]) =
    Except.ok [] := by decide

example : validate (Json.obj []) = Except.ok [errMissingState, errMissingTrans] := by decide

example : validate (Json.num 5) = Except.error PyErr.typeError := by decide

example : validate (Json.obj [("state", Json.num 5), ("transitions", Json.obj [])]) =
    Except.error PyErr.typeError := by decide

/-- The target state named by a trigger record, when the record is a dict
carrying a string `status`. -/
def triggerEdge? (td : Json) : Option String :=
  match td with
  | .obj tde =>
    match lookup' tde "status" with
    | some (.str t) => some t
    | _ => none
  | _ => none

/-- The `(source, target, trigger)` triples of one source state, in
iteration order, when every record resolves. -/
def edgesOfInner (src : String) : List (String × Json) → Option (List (String × String × String))
  | [] => some []
  | (trig, td) :: rest =>
    match triggerEdge? td, edgesOfInner src rest with
    | some t, some r => some ((src, t, trig) :: r)
    | _, _ => none

/-- The `(source, target, trigger)` triples of a `transitions` mapping, in
iteration order, when every record resolves. -/
def edgesOf : List (String × Json) → Option (List (String × String × String))
  | [] => some []
  | (src, trigs) :: rest =>
    match trigs with
    | .obj te =>
      match edgesOfInner src te, edgesOf rest with
      | some e1, some r => some (e1 ++ r)
      | _, _ => none
    | _ => none

/-- The text of the edge statements for a list of edge triples, in order. -/
def edgesText : List (String × String × String) → String
  | [] => ""
  | (src, tgt, trig) :: rest => mkEdgeStmt src tgt trig ++ edgesText rest

/-- The characters of one edge statement line (without its leading
newline). -/
def edgeLineChars (e : String × String × String) : List Char :=
  (e.1 ++ " -> " ++ e.2.1 ++ " [label = \"" ++ e.2.2 ++ "\"];").data

/-- The characters of the whole transitions section: each edge statement
preceded by its newline. -/
def edgesChunks : List (String × String × String) → List Char
  | [] => []
  | e :: rest => '\n' :: (edgeLineChars e ++ edgesChunks rest)

/-- Whether every double quote of a character list is immediately preceded
by a backslash; `afterBS` records whether the previous character was a
backslash. -/
def quotesEscapedFrom (afterBS : Bool) : List Char → Bool
  | [] => true
  | c :: rest =>
    if c = '"' then afterBS && quotesEscapedFrom false rest
    else quotesEscapedFrom (c = '\\') rest

/-- Whether every double quote of a character list is immediately preceded
by a backslash. -/
def quotesEscaped (l : List Char) : Bool := quotesEscapedFrom false l

/-- A one-state sample `transitions` mapping, used by concrete witnesses. -/
def sampleTrans : List (String × Json) :=
  [("idle", Json.obj [("go", Json.obj [("status", Json.str "idle")])])]

/-- The sample `state` object, used by concrete witnesses. -/
def sampleState : List (String × Json) := [("status", Json.str "idle")]

/-- A sample loaded FSM definition, used by concrete witnesses. -/
def sampleEntries : List (String × Json) :=
  [("state", Json.obj sampleState), ("transitions", Json.obj sampleTrans)]

/-- A sample `NodeRed_FSM` object, used by concrete witnesses. -/
def sampleObjFSM : FSMObj :=
  ⟨"f", Json.obj sampleEntries, "in.json", some "out.dot", ""⟩

/-- A sample clock, used by concrete witnesses. -/
def sampleNow : Now := ⟨"20260101", "120000", "01/01/2026", "12:00:00"⟩

/-- A `transitions` mapping whose single trigger name embeds a newline and
an arrow; `validate` accepts it. -/
def trickyTrans : List (String × Json) :=
  [("a", Json.obj [("x\ny -> z", Json.obj [("status", Json.str "a")])])]

/-- A valid definition built from `trickyTrans`. -/
def trickyEntries : List (String × Json) :=
  [("state", Json.obj [("status", Json.str "a")]),
   ("transitions", Json.obj trickyTrans)]

/-- A `NodeRed_FSM` object loaded with `trickyEntries`. -/
def trickyObjFSM : FSMObj := ⟨"f", Json.obj trickyEntries, "in.json", some "out.dot", ""⟩

/-! ## Helper lemmas -/

theorem keyMem_iff {l : List (String × Json)} {k : String} :
    keyMem l k = true ↔ ∃ v, lookup' l k = some v := by
  induction l with
  | nil => simp [keyMem, lookup']
  | cons p rest ih =>
    by_cases h : (p.1 == k) = true
    · simp [keyMem, lookup', List.find?_cons, h]
    · have h' : (p.1 == k) = false := by simpa using h
      simp only [keyMem, List.any_cons, h', Bool.false_or]
      rw [show lookup' (p :: rest) k = lookup' rest k by
        simp [lookup', List.find?_cons, h']]
      exact ih

theorem pySubscript_obj_some {entries : List (String × Json)} {k : String} {v : Json}
    (h : lookup' entries k = some v) : pySubscript (Json.obj entries) k = .ok v := by
  simp [pySubscript, h]

theorem container_pyContains {sv : Json} (h : isContainer sv = true) (k : String) :
    ∃ b, pyContains sv k = .ok b := by
  cases sv <;> simp [isContainer] at h <;> simp [pyContains]

/-! ## Claim theorems -/

/-- C3 counterexample: a definition missing both top-level keys makes
`validate` return both error strings, not only the `state` one. -/
theorem validate_missing_both_counterexample :
    validate (Json.obj []) = .ok [errMissingState, errMissingTrans] ∧
    [errMissingState, errMissingTrans] ≠ [errMissingState] := by
  exact ⟨rfl, by decide⟩

/-- C3 (amended): when `state` is absent `validate` emits the missing-state
error, still performs the `transitions` presence check, and returns before
any further checks; a definition missing both keys gets exactly the two
missing-key errors in order, and one missing only `transitions` gets
exactly the single transitions error. -/
theorem validate_missing_state_behavior (entries : List (String × Json)) :
    (keyMem entries "state" = false →
      validate (Json.obj entries) =
        .ok (errMissingState ::
          (if keyMem entries "transitions" then [] else [errMissingTrans]))) ∧
    (keyMem entries "state" = true → keyMem entries "transitions" = false →
      validate (Json.obj entries) = .ok [errMissingTrans]) := by
  constructor
  · intro h
    simp [validate, pyContains, h]
  · intro h1 h2
    simp [validate, pyContains, h1, h2]

/-- C3 witness: the amended behavior at concrete inputs. -/
theorem validate_missing_state_behavior_witness :
    validate (Json.obj [("transitions", Json.obj [("a", Json.obj [])])]) =
      .ok [errMissingState] ∧
    validate (Json.obj [("state", Json.obj [])]) = .ok [errMissingTrans] := by
  constructor
  · simpa using (validate_missing_state_behavior
      [("transitions", Json.obj [("a", Json.obj [])])]).1 (by decide)
  · exact (validate_missing_state_behavior [("state", Json.obj [])]).2
      (by decide) (by decide)

/-- C9: `validate` raises `TypeError` when the loaded document is a
non-container JSON value (number, boolean or null), and when the `state`
value is a non-container while `transitions` is present. -/
theorem validate_raises_on_non_container (d : Json) :
    (((∃ n, d = Json.num n) ∨ (∃ b, d = Json.bool b) ∨ d = Json.null) →
        validate d = .error .typeError) ∧
    (∀ entries sv, d = Json.obj entries → lookup' entries "state" = some sv →
        ((∃ n, sv = Json.num n) ∨ (∃ b, sv = Json.bool b) ∨ sv = Json.null) →
        keyMem entries "transitions" = true →
        validate d = .error .typeError) := by
  constructor
  · rintro (⟨n, rfl⟩ | ⟨b, rfl⟩ | rfl) <;> rfl
  · rintro entries sv rfl hs hsv ht
    have hk : keyMem entries "state" = true := keyMem_iff.mpr ⟨sv, hs⟩
    rcases hsv with ⟨n, rfl⟩ | ⟨b, rfl⟩ | rfl <;>
      simp [validate, pyContains, hk, ht, validateBody, pySubscript, hs]

/-- C9 witness: the raising behavior at concrete inputs. -/
theorem validate_raises_on_non_container_witness :
    validate (Json.num 5) = .error .typeError ∧
    validate (Json.obj [("state", Json.null), ("transitions", Json.obj [])]) =
      .error .typeError :=
  ⟨(validate_raises_on_non_container (Json.num 5)).1 (Or.inl ⟨5, rfl⟩),
   (validate_raises_on_non_container _).2 _ _ rfl rfl (Or.inr (Or.inr rfl)) rfl⟩

/-- C8: `validate` performs no assignment to the object, and `buildDotFile`
changes nothing but the `dotFileName` field: name, loaded definition,
input path and configured output path all keep their values. -/
theorem validate_render_frame (o : FSMObj) (now : Now) (notes : String) (b : Bool) :
    (validateM o).1 = o ∧
    (buildDotFile o now notes b).1 =
      { o with dotFileName := resolvedDotFileName o now } ∧
    (buildDotFile o now notes b).1.name = o.name ∧
    (buildDotFile o now notes b).1.FSM_as_Dict = o.FSM_as_Dict ∧
    (buildDotFile o now notes b).1.input_file_path = o.input_file_path ∧
    (buildDotFile o now notes b).1.output_file_path = o.output_file_path :=
  ⟨rfl, rfl, rfl, rfl, rfl, rfl⟩

/-- C10: `buildDotFile` assigns the resolved path before attempting the
write, so on write failure the object state is the same as on success,
`getDotFileName` returns the resolved path, and yet no text was written
(the call raises). -/
theorem render_not_atomic_on_write_failure (o : FSMObj) (now : Now) (notes : String) :
    (buildDotFile o now notes false).1 = (buildDotFile o now notes true).1 ∧
    getDotFileName (buildDotFile o now notes false).1 = resolvedDotFileName o now ∧
    ∃ e, (buildDotFile o now notes false).2 = .error e := by
  refine ⟨rfl, rfl, ?_⟩
  cases h : dotContent o now notes with
  | error e => exact ⟨e, by simp [buildDotFile, h]⟩
  | ok c => exact ⟨.writeError, by simp [buildDotFile, h]⟩

/-- C6: Render resolves the output path to the caller-supplied target when
a non-empty one was provided, otherwise to
`input-directory/<name>_<YYYYMMDD>.dot`, and records the resolved path in
`dotFileName`, which `getDotFileName` returns. -/
theorem render_resolves_output_path (o : FSMObj) (now : Now) (notes : String) (b : Bool) :
    (∀ p, o.output_file_path = some p → p ≠ "" →
        (buildDotFile o now notes b).1.dotFileName = p) ∧
    (o.output_file_path = none →
        (buildDotFile o now notes b).1.dotFileName =
          osPathJoin (osPathDirname o.input_file_path)
            (o.name ++ "_" ++ now.ymd ++ ".dot")) ∧
    getDotFileName (buildDotFile o now notes b).1 = resolvedDotFileName o now := by
  refine ⟨?_, ?_, rfl⟩
  · intro p hp hne
    simp [buildDotFile, resolvedDotFileName, pyTruthyStrOpt, hp, hne]
  · intro hp
    simp [buildDotFile, resolvedDotFileName, pyTruthyStrOpt, autoDotFileName, hp]

/-- C6 witness: path resolution at a concrete object, both for an absent
and for a supplied output path. -/
theorem render_resolves_output_path_witness :
    (buildDotFile ⟨"f", Json.null, "a/in.json", none, ""⟩
        ⟨"20260101", "120000", "01/01/2026", "12:00:00"⟩ "" true).1.dotFileName =
      osPathJoin (osPathDirname "a/in.json") ("f" ++ "_" ++ "20260101" ++ ".dot") ∧
    (buildDotFile ⟨"f", Json.null, "a/in.json", some "out.dot", ""⟩
        ⟨"20260101", "120000", "01/01/2026", "12:00:00"⟩ "" true).1.dotFileName =
      "out.dot" :=
  ⟨(render_resolves_output_path _ _ _ _).2.1 rfl,
   (render_resolves_output_path _ _ _ _).1 "out.dot" rfl (by decide)⟩

theorem validateBody_bad_transitions {entries : List (String × Json)} {sv tv : Json} {b : Bool}
    (hsv : lookup' entries "state" = some sv)
    (hb : pyContains sv "status" = .ok b)
    (htv : lookup' entries "transitions" = some tv)
    (hnd : notNonEmptyDict tv = true) :
    validateBody (Json.obj entries) =
      .ok ((if b then [] else [errStateMissingStatus]) ++ [errTransNonEmpty]) := by
  cases tv with
  | obj l =>
    have hl : l.isEmpty = true := by simpa [notNonEmptyDict] using hnd
    simp [validateBody, pySubscript, hsv, htv, hb, hl]
  | null => simp [validateBody, pySubscript, hsv, htv, hb]
  | bool _ => simp [validateBody, pySubscript, hsv, htv, hb]
  | num _ => simp [validateBody, pySubscript, hsv, htv, hb]
  | str _ => simp [validateBody, pySubscript, hsv, htv, hb]
  | arr _ => simp [validateBody, pySubscript, hsv, htv, hb]

/-- C2 counterexample: `transitions` present but empty and a numeric
`state` value make `validate` raise `TypeError` instead of returning a
non-empty error sequence. -/
theorem validate_empty_transitions_counterexample :
    validate (Json.obj [("state", Json.num 5), ("transitions", Json.obj [])]) =
      .error .typeError := rfl

/-- C2 (amended): for a definition object in which `transitions` is absent,
`validate` returns a non-empty error sequence and never raises, whatever
the other parts; when `transitions` is present but not a non-empty
mapping, the same holds provided the `state` value (if present) is a
container (dict, list or string) so that the `status` membership test
cannot raise. -/
theorem validate_no_transitions_behavior (entries : List (String × Json)) :
    (keyMem entries "transitions" = false →
      ∃ l, validate (Json.obj entries) = .ok l ∧ l ≠ []) ∧
    (∀ tv, lookup' entries "transitions" = some tv → notNonEmptyDict tv = true →
      (∀ sv, lookup' entries "state" = some sv → isContainer sv = true) →
      ∃ l, validate (Json.obj entries) = .ok l ∧ l ≠ []) := by
  constructor
  · intro h
    cases hs : keyMem entries "state"
    · exact ⟨[errMissingState, errMissingTrans],
        by simp [validate, pyContains, hs, h], by simp⟩
    · exact ⟨[errMissingTrans], by simp [validate, pyContains, hs, h], by simp⟩
  · intro tv htv hnd hstate
    have ht : keyMem entries "transitions" = true := keyMem_iff.mpr ⟨tv, htv⟩
    cases hs : keyMem entries "state"
    · exact ⟨[errMissingState], by simp [validate, pyContains, hs, ht], by simp⟩
    · obtain ⟨sv, hsv⟩ := keyMem_iff.mp hs
      obtain ⟨b, hb⟩ := container_pyContains (hstate sv hsv) "status"
      refine ⟨(if b then [] else [errStateMissingStatus]) ++ [errTransNonEmpty], ?_, by simp⟩
      have hvb : validate (Json.obj entries) = validateBody (Json.obj entries) := by
        simp [validate, pyContains, hs, ht]
      rw [hvb, validateBody_bad_transitions hsv hb htv hnd]

/-- C2 witness: the amended behavior at concrete inputs, for an absent and
for a present-but-numeric `transitions` value. -/
theorem validate_no_transitions_behavior_witness :
    (∃ l, validate (Json.obj [("state", Json.obj [])]) = .ok l ∧ l ≠ []) ∧
    (∃ l, validate (Json.obj [("state", Json.obj []), ("transitions", Json.num 3)]) =
        .ok l ∧ l ≠ []) :=
  ⟨(validate_no_transitions_behavior [("state", Json.obj [])]).1 (by decide),
   (validate_no_transitions_behavior _).2 (Json.num 3) rfl rfl (fun sv hsv => by
      have h0 : (some (Json.obj []) : Option Json) = some sv := hsv
      cases h0
      decide)⟩

theorem lookup'_none_of_not_keyMem {l : List (String × Json)} {k : String}
    (h : keyMem l k = false) : lookup' l k = none := by
  cases hl : lookup' l k with
  | none => rfl
  | some v =>
    have ht := keyMem_iff.mpr ⟨v, hl⟩
    rw [ht] at h
    cases h

theorem keyMem_eq_contains_keys {ts : List (String × Json)} {s : String} :
    keyMem ts s = ((ts.map (fun p => p.1)).contains s) := by
  by_cases h : s ∈ ts.map (fun p => p.1)
  · simp_all [keyMem, List.any_eq_true]
  · simp_all [keyMem, List.any_eq_true]
    intro a b hab hc
    subst hc
    exact h b hab

theorem exceptApp_eq_ok_nil {x y : Except PyErr (List String)} :
    exceptApp x y = .ok [] ↔ x = .ok [] ∧ y = .ok [] := by
  cases x <;> cases y <;> simp [exceptApp]

theorem soundTrigger_iff {keys : List String} {td : Json} :
    soundTrigger keys td = true ↔
      ∃ tde t, td = Json.obj tde ∧ lookup' tde "status" = some (Json.str t) ∧
        keys.contains t = true := by
  cases td with
  | obj tde =>
    cases hlt : lookup' tde "status" with
    | none => simp [soundTrigger, hlt]
    | some v => cases v <;> simp [soundTrigger, hlt]
  | null => simp [soundTrigger]
  | bool b => simp [soundTrigger]
  | num n => simp [soundTrigger]
  | str s => simp [soundTrigger]
  | arr a => simp [soundTrigger]

theorem inner_ok_of_all {keys : List String} {src : String} {te : List (String × Json)}
    (h : te.all (fun q => soundTrigger keys q.2) = true) :
    innerShapeErrors src te = [] ∧ targetTriggerErrors keys src te = .ok [] := by
  induction te with
  | nil => exact ⟨rfl, rfl⟩
  | cons q rest ih =>
    rw [List.all_cons] at h
    obtain ⟨h1, h2⟩ := Bool.and_eq_true_iff.mp h
    obtain ⟨trig, td⟩ := q
    obtain ⟨tde, t, hobj, hlt, hct⟩ := soundTrigger_iff.mp h1
    obtain ⟨ihs, iht⟩ := ih h2
    have hk : keyMem tde "status" = true := keyMem_iff.mpr ⟨_, hlt⟩
    simp only at hobj
    subst hobj
    constructor
    · simp [innerShapeErrors, shapeCheckOne, hk, ihs]
    · have hct' : (decide (t ∈ keys)) = true := by simpa using hct
      simp [targetTriggerErrors, targetCheckOne, hlt, pySetMem, hct', iht, exceptApp]

theorem all_of_inner_ok {keys : List String} {src : String} {te : List (String × Json)}
    (hs : innerShapeErrors src te = [])
    (ht : targetTriggerErrors keys src te = .ok []) :
    te.all (fun q => soundTrigger keys q.2) = true := by
  induction te with
  | nil => rfl
  | cons q rest ih =>
    obtain ⟨trig, td⟩ := q
    rw [innerShapeErrors, List.append_eq_nil] at hs
    obtain ⟨hs1, hs2⟩ := hs
    rw [targetTriggerErrors, exceptApp_eq_ok_nil] at ht
    obtain ⟨ht1, ht2⟩ := ht
    rw [List.all_cons]
    refine Bool.and_eq_true_iff.mpr ⟨?_, ih hs2 ht2⟩
    cases td with
    | obj tde =>
      cases hk : keyMem tde "status" with
      | false => rw [shapeCheckOne, hk] at hs1; simp at hs1
      | true =>
        obtain ⟨v, hv⟩ := keyMem_iff.mp hk
        rw [targetCheckOne, hv] at ht1
        cases v with
        | str t =>
          simp only [pySetMem] at ht1
          cases hc : keys.contains t with
          | false => rw [hc] at ht1; simp at ht1
          | true => exact soundTrigger_iff.mpr ⟨tde, t, rfl, hv, hc⟩
        | null => simp [pySetMem] at ht1
        | bool b => simp [pySetMem] at ht1
        | num n => simp [pySetMem] at ht1
        | arr a => simp [pySetMem] at ht1
        | obj oo => simp [pySetMem] at ht1
    | null => simp [shapeCheckOne] at hs1
    | bool b => simp [shapeCheckOne] at hs1
    | num n => simp [shapeCheckOne] at hs1
    | str s => simp [shapeCheckOne] at hs1
    | arr a => simp [shapeCheckOne] at hs1

theorem shape_target_of_all {keys : List String} {ts : List (String × Json)}
    (h : ts.all (fun p => match p.2 with
        | Json.obj te => te.all (fun q => soundTrigger keys q.2)
        | _ => false) = true) :
    shapeErrors ts = [] ∧ targetErrorsAux keys ts = .ok [] := by
  induction ts with
  | nil => exact ⟨rfl, rfl⟩
  | cons p rest ih =>
    rw [List.all_cons] at h
    obtain ⟨h1, h2⟩ := Bool.and_eq_true_iff.mp h
    obtain ⟨src, trigs⟩ := p
    obtain ⟨ihs, iht⟩ := ih h2
    cases trigs with
    | obj te =>
      simp only at h1
      obtain ⟨is1, is2⟩ := @inner_ok_of_all keys src te h1
      exact ⟨by simp [shapeErrors, shapeCheckSource, is1, ihs],
             by simp [targetErrorsAux, targetCheckSource, is2, iht, exceptApp]⟩
    | null => simp at h1
    | bool b => simp at h1
    | num n => simp at h1
    | str s => simp at h1
    | arr a => simp at h1

theorem all_of_shape_target {keys : List String} {ts : List (String × Json)}
    (hs : shapeErrors ts = []) (ht : targetErrorsAux keys ts = .ok []) :
    ts.all (fun p => match p.2 with
        | Json.obj te => te.all (fun q => soundTrigger keys q.2)
        | _ => false) = true := by
  induction ts with
  | nil => rfl
  | cons p rest ih =>
    obtain ⟨src, trigs⟩ := p
    rw [shapeErrors, List.append_eq_nil] at hs
    obtain ⟨hs1, hs2⟩ := hs
    rw [targetErrorsAux, exceptApp_eq_ok_nil] at ht
    obtain ⟨ht1, ht2⟩ := ht
    rw [List.all_cons]
    refine Bool.and_eq_true_iff.mpr ⟨?_, ih hs2 ht2⟩
    cases trigs with
    | obj te =>
      rw [shapeCheckSource] at hs1
      rw [targetCheckSource] at ht1
      simpa using all_of_inner_ok hs1 ht1
    | null => simp [shapeCheckSource] at hs1
    | bool b => simp [shapeCheckSource] at hs1
    | num n => simp [shapeCheckSource] at hs1
    | str s => simp [shapeCheckSource] at hs1
    | arr a => simp [shapeCheckSource] at hs1

theorem initialErrors_ok_nil_iff {st ts : List (String × Json)}
    (hst : keyMem st "status" = true) :
    initialErrors (Json.obj st) true ts = .ok [] ↔
      ∃ s0, lookup' st "status" = some (Json.str s0) ∧ keyMem ts s0 = true := by
  obtain ⟨v, hv⟩ := keyMem_iff.mp hst
  cases v with
  | str s0 =>
    cases hm : keyMem ts s0 with
    | true => simp [initialErrors, pySubscript, hv, pyDictMem, hm]
    | false => simp [initialErrors, pySubscript, hv, pyDictMem, hm]
  | null => simp [initialErrors, pySubscript, hv, pyDictMem]
  | bool b => simp [initialErrors, pySubscript, hv, pyDictMem]
  | num n => simp [initialErrors, pySubscript, hv, pyDictMem]
  | arr a => simp [initialErrors, pySubscript, hv, pyDictMem]
  | obj oo => simp [initialErrors, pySubscript, hv, pyDictMem]

theorem sound_obj_iff {entries st ts : List (String × Json)}
    (hsv : lookup' entries "state" = some (Json.obj st))
    (htv : lookup' entries "transitions" = some (Json.obj ts)) :
    structurallySound (Json.obj entries) = true ↔
      (∃ s0, lookup' st "status" = some (Json.str s0) ∧
        (ts.map (fun p => p.1)).contains s0 = true) ∧
      ts ≠ [] ∧
      ts.all (fun p => match p.2 with
        | Json.obj te => te.all (fun q => soundTrigger (ts.map (fun p => p.1)) q.2)
        | _ => false) = true := by
  cases hls : lookup' st "status" with
  | none => simp [structurallySound, hsv, htv, hls]
  | some v =>
    cases v <;> simp [structurallySound, hsv, htv, hls, and_assoc]

theorem validateBody_ne_nil_of_no_status {entries : List (String × Json)} {sv tv : Json}
    (hsv : lookup' entries "state" = some sv)
    (htv : lookup' entries "transitions" = some tv)
    (hst : pyContains sv "status" = .ok false) :
    validateBody (Json.obj entries) ≠ .ok [] := by
  intro hcon
  simp only [validateBody, pySubscript, hsv, htv, hst] at hcon
  cases tv with
  | obj ts =>
    cases hemp : ts.isEmpty with
    | true => simp [hemp] at hcon
    | false =>
      simp only [hemp, initialErrors] at hcon
      cases h4 : targetErrors ts with
      | error e => simp [h4] at hcon
      | ok l4 => simp [h4] at hcon
  | null => simp at hcon
  | bool b => simp at hcon
  | num n => simp at hcon
  | str s => simp at hcon
  | arr a => simp at hcon

theorem validateBody_ne_nil_of_status_raise {entries : List (String × Json)} {sv tv : Json}
    (hsv : lookup' entries "state" = some sv)
    (htv : lookup' entries "transitions" = some tv)
    (hst : pyContains sv "status" = .ok true)
    (hsub : ∃ e, pySubscript sv "status" = .error e) :
    validateBody (Json.obj entries) ≠ .ok [] := by
  intro hcon
  obtain ⟨e, he⟩ := hsub
  simp only [validateBody, pySubscript, hsv, htv, hst] at hcon
  cases tv with
  | obj ts =>
    cases hemp : ts.isEmpty with
    | true => simp [hemp] at hcon
    | false => simp only [hemp, initialErrors, he] at hcon; simp at hcon
  | null => simp at hcon
  | bool b => simp at hcon
  | num n => simp at hcon
  | str s => simp at hcon
  | arr a => simp at hcon

/-- C1: `validate` returns the empty error sequence exactly on the
definitions that are structurally sound per the data model and the
invariants of §3 of the spec; in particular every definition whose
transition targets and initial state are all keys of `transitions` (and
which is shaped as §3 describes) validates cleanly. -/
theorem validate_empty_iff_structurally_sound (d : Json) :
    validate d = .ok [] ↔ structurallySound d = true := by
  cases d with
  | null => simp [validate, pyContains, structurallySound]
  | bool b => simp [validate, pyContains, structurallySound]
  | num n => simp [validate, pyContains, structurallySound]
  | str s =>
    cases h1 : strContains s "state" <;> cases h2 : strContains s "transitions" <;>
      simp [validate, pyContains, validateBody, pySubscript, h1, h2, structurallySound]
  | arr a =>
    cases h1 : a.any (fun e => pyEqStr e "state") <;>
      cases h2 : a.any (fun e => pyEqStr e "transitions") <;>
        simp [validate, pyContains, validateBody, pySubscript, h1, h2, structurallySound]
  | obj entries =>
    cases hs : keyMem entries "state" with
    | false =>
      have hn : lookup' entries "state" = none := lookup'_none_of_not_keyMem hs
      cases ht : keyMem entries "transitions" <;>
        simp [validate, pyContains, hs, ht, structurallySound, hn]
    | true =>
      obtain ⟨sv, hsv⟩ := keyMem_iff.mp hs
      cases ht : keyMem entries "transitions" with
      | false =>
        have hn : lookup' entries "transitions" = none := lookup'_none_of_not_keyMem ht
        cases sv <;> simp [validate, pyContains, hs, ht, structurallySound, hsv, hn]
      | true =>
        obtain ⟨tv, htv⟩ := keyMem_iff.mp ht
        have hvb : validate (Json.obj entries) = validateBody (Json.obj entries) := by
          simp [validate, pyContains, hs, ht]
        rw [hvb]
        cases sv with
        | num n =>
          simp [validateBody, pySubscript, hsv, pyContains, structurallySound, htv]
        | bool b2 =>
          simp [validateBody, pySubscript, hsv, pyContains, structurallySound, htv]
        | null =>
          simp [validateBody, pySubscript, hsv, pyContains, structurallySound, htv]
        | str s2 =>
          have hsound : structurallySound (Json.obj entries) = false := by
            simp [structurallySound, hsv, htv]
          cases hst : strContains s2 "status" with
          | false =>
            have hA := validateBody_ne_nil_of_no_status hsv htv
              (by simp [pyContains, hst])
            simp [hA, hsound]
          | true =>
            have hB := validateBody_ne_nil_of_status_raise hsv htv
              (by simp [pyContains, hst]) ⟨.typeError, by simp [pySubscript]⟩
            simp [hB, hsound]
        | arr a2 =>
          have hsound : structurallySound (Json.obj entries) = false := by
            simp [structurallySound, hsv, htv]
          cases hst : a2.any (fun e => pyEqStr e "status") with
          | false =>
            have hA := validateBody_ne_nil_of_no_status hsv htv
              (by simp [pyContains, hst])
            simp [hA, hsound]
          | true =>
            have hB := validateBody_ne_nil_of_status_raise hsv htv
              (by simp [pyContains, hst]) ⟨.typeError, by simp [pySubscript]⟩
            simp [hB, hsound]
        | obj st =>
          cases hst : keyMem st "status" with
          | false =>
            have hnone : lookup' st "status" = none := lookup'_none_of_not_keyMem hst
            have hA := validateBody_ne_nil_of_no_status hsv htv
              (by simp [pyContains, hst])
            have hsound : structurallySound (Json.obj entries) = false := by
              cases tv <;> simp [structurallySound, hsv, htv, hnone]
            simp [hA, hsound]
          | true =>
            obtain ⟨v0, hv0⟩ := keyMem_iff.mp hst
            cases tv with
            | null =>
              simp [validateBody, pySubscript, hsv, htv, pyContains, hst, structurallySound]
            | bool b3 =>
              simp [validateBody, pySubscript, hsv, htv, pyContains, hst, structurallySound]
            | num n3 =>
              simp [validateBody, pySubscript, hsv, htv, pyContains, hst, structurallySound]
            | str s3 =>
              simp [validateBody, pySubscript, hsv, htv, pyContains, hst, structurallySound]
            | arr a3 =>
              simp [validateBody, pySubscript, hsv, htv, pyContains, hst, structurallySound]
            | obj ts =>
              cases hemp : ts.isEmpty with
              | true =>
                have hts : ts = [] := by simpa using hemp
                subst hts
                simp [validateBody, pySubscript, hsv, htv, pyContains, hst,
                  structurallySound, hv0]
              | false =>
                cases v0 with
                | arr a0 =>
                  simp [validateBody, pySubscript, hsv, htv, pyContains, hst, hemp,
                    initialErrors, hv0, pyDictMem, structurallySound]
                | obj o0 =>
                  simp [validateBody, pySubscript, hsv, htv, pyContains, hst, hemp,
                    initialErrors, hv0, pyDictMem, structurallySound]
                | num n0 =>
                  cases h4 : targetErrors ts with
                  | error e =>
                    simp [validateBody, pySubscript, hsv, htv, pyContains, hst, hemp,
                      initialErrors, hv0, pyDictMem, h4, structurallySound]
                  | ok l4 =>
                    simp [validateBody, pySubscript, hsv, htv, pyContains, hst, hemp,
                      initialErrors, hv0, pyDictMem, h4, structurallySound]
                | bool b0 =>
                  cases h4 : targetErrors ts with
                  | error e =>
                    simp [validateBody, pySubscript, hsv, htv, pyContains, hst, hemp,
                      initialErrors, hv0, pyDictMem, h4, structurallySound]
                  | ok l4 =>
                    simp [validateBody, pySubscript, hsv, htv, pyContains, hst, hemp,
                      initialErrors, hv0, pyDictMem, h4, structurallySound]
                | null =>
                  cases h4 : targetErrors ts with
                  | error e =>
                    simp [validateBody, pySubscript, hsv, htv, pyContains, hst, hemp,
                      initialErrors, hv0, pyDictMem, h4, structurallySound]
                  | ok l4 =>
                    simp [validateBody, pySubscript, hsv, htv, pyContains, hst, hemp,
                      initialErrors, hv0, pyDictMem, h4, structurallySound]
                | str s0 =>
                  cases hm : keyMem ts s0 with
                  | false =>
                    have hnm : ∀ x : Json, (s0, x) ∉ ts := by
                      intro x hx
                      have hkm : keyMem ts s0 = true := by
                        simp only [keyMem, List.any_eq_true]
                        exact ⟨(s0, x), hx, by simp⟩
                      rw [hm] at hkm
                      cases hkm
                    rw [sound_obj_iff hsv htv]
                    cases h4 : targetErrors ts with
                    | error e =>
                      simp [validateBody, pySubscript, hsv, htv, pyContains, hst, hemp,
                        initialErrors, hv0, pyDictMem, hm, h4]
                      exact fun x hx _ => absurd hx (hnm x)
                    | ok l4 =>
                      simp [validateBody, pySubscript, hsv, htv, pyContains, hst, hemp,
                        initialErrors, hv0, pyDictMem, hm, h4]
                      exact fun x hx _ => absurd hx (hnm x)
                  | true =>
                    have hcont : ((ts.map (fun p => p.1)).contains s0) = true := by
                      rw [← keyMem_eq_contains_keys]; exact hm
                    have hinit : initialErrors (Json.obj st) true ts = .ok [] := by
                      simp [initialErrors, pySubscript, hv0, pyDictMem, hm]
                    rw [sound_obj_iff hsv htv]
                    cases h4 : targetErrors ts with
                    | error e =>
                      simp only [validateBody, pySubscript, hsv, htv, pyContains, hst,
                        hemp, hinit, h4]
                      simp only [Bool.false_eq_true, if_false]
                      constructor
                      · intro hcon; cases hcon
                      · rintro ⟨-, -, hall⟩
                        have htz := (shape_target_of_all hall).2
                        rw [targetErrors] at h4
                        rw [htz] at h4
                        cases h4
                    | ok l4 =>
                      simp only [validateBody, pySubscript, hsv, htv, pyContains, hst,
                        hemp, hinit, h4]
                      simp only [Bool.false_eq_true, if_false]
                      constructor
                      · intro hcon
                        have hcc : shapeErrors ts ++ l4 = [] := by
                          simpa using hcon
                        obtain ⟨hsh, hl4⟩ := List.append_eq_nil.mp hcc
                        subst hl4
                        rw [targetErrors] at h4
                        refine ⟨⟨s0, hv0, hcont⟩, ?_, all_of_shape_target hsh h4⟩
                        intro hts
                        subst hts
                        simp at hemp
                      · rintro ⟨-, -, hall⟩
                        obtain ⟨hsh, htz⟩ := shape_target_of_all hall
                        rw [targetErrors] at h4
                        rw [htz] at h4
                        have hl4 : l4 = [] := by
                          simpa using h4.symm
                        subst hl4
                        simp [hsh]

theorem infix_data_of_split (x y z : String) {c : String} (h : c = x ++ y ++ z) :
    y.data <:+: c.data := by
  subst h
  simp only [String.data_append]
  exact List.infix_append _ _ _

/-- C7: the header block Render emits reports the state count as the
number of keys of `transitions`, the transition count as the sum of the
inner-mapping lengths, and the initial state as `state.status`, or the
literal `unknown` when the `status` field is absent. -/
theorem render_header_reports (o : FSMObj) (now : Now) (notes : String)
    {entries st ts : List (String × Json)} {es : String} (init : String)
    (hd : o.FSM_as_Dict = Json.obj entries)
    (htv : lookup' entries "transitions" = some (Json.obj ts))
    (hsv : lookup' entries "state" = some (Json.obj st))
    (hes : edgeString ts = .ok es)
    (hinit : lookup' st "status" = some (Json.str init) ∨
             (lookup' st "status" = none ∧ init = "unknown")) :
    ∃ c, (buildDotFile o now notes true).2 = .ok c ∧
      ("States: " ++ toString ts.length ++ "  |  Transitions: " ++
        toString (transitionCount ts)).data <:+: c.data ∧
      ("Initial state: " ++ init ++ "\n").data <:+: c.data := by
  have hinitd : initialStateDisplay (Json.obj st) = .ok init := by
    rcases hinit with h | ⟨h, hu⟩
    · simp [initialStateDisplay, h]
    · subst hu
      simp [initialStateDisplay, h]
  have hdc : dotContent o now notes = .ok (mkContent
      (mkFileHeader o.name now.hms now.dmy (osPathBasename o.input_file_path)
        ts.length (transitionCount ts) init)
      es
      (mkLabelContent
        (mkFileHeader o.name now.hms now.dmy (osPathBasename o.input_file_path)
          ts.length (transitionCount ts) init)
        (mkDotCommand (resolvedDotFileName o now)
          ((osPathSplitext (resolvedDotFileName o now)).1 ++ ".pdf"))
        notes)) := by
    simp [dotContent, pySubscript, hd, htv, hsv, hes, hinitd]
  have hb : (buildDotFile o now notes true).2 = .ok (mkContent
      (mkFileHeader o.name now.hms now.dmy (osPathBasename o.input_file_path)
        ts.length (transitionCount ts) init)
      es
      (mkLabelContent
        (mkFileHeader o.name now.hms now.dmy (osPathBasename o.input_file_path)
          ts.length (transitionCount ts) init)
        (mkDotCommand (resolvedDotFileName o now)
          ((osPathSplitext (resolvedDotFileName o now)).1 ++ ".pdf"))
        notes)) := by
    simp [buildDotFile, hdc]
  refine ⟨_, hb, ?_, ?_⟩
  · refine infix_data_of_split
      ("/*" ++ "\n" ++ mkTitle o.name ++ "\n" ++ "Author: " ++ "Peter Nussey" ++ "\n" ++
        mkVersionInfo now.hms now.dmy ++ "\n" ++ "Source: " ++
        osPathBasename o.input_file_path ++ "\n")
      ("States: " ++ toString ts.length ++ "  |  Transitions: " ++
        toString (transitionCount ts))
      ("\n" ++ "Initial state: " ++ init ++ "\n" ++ "*/" ++ "\n" ++ layoutInfo ++ "\n" ++
        es ++ "\n" ++ mkFooter (mkLabelContent
          (mkFileHeader o.name now.hms now.dmy (osPathBasename o.input_file_path)
            ts.length (transitionCount ts) init)
          (mkDotCommand (resolvedDotFileName o now)
            ((osPathSplitext (resolvedDotFileName o now)).1 ++ ".pdf"))
          notes) ++ "\n\x7d") ?_
    simp only [mkContent, mkFileHeader, String.append_assoc]
  · refine infix_data_of_split
      ("/*" ++ "\n" ++ mkTitle o.name ++ "\n" ++ "Author: " ++ "Peter Nussey" ++ "\n" ++
        mkVersionInfo now.hms now.dmy ++ "\n" ++ "Source: " ++
        osPathBasename o.input_file_path ++ "\n" ++ "States: " ++ toString ts.length ++
        "  |  Transitions: " ++ toString (transitionCount ts) ++ "\n")
      ("Initial state: " ++ init ++ "\n")
      ("*/" ++ "\n" ++ layoutInfo ++ "\n" ++
        es ++ "\n" ++ mkFooter (mkLabelContent
          (mkFileHeader o.name now.hms now.dmy (osPathBasename o.input_file_path)
            ts.length (transitionCount ts) init)
          (mkDotCommand (resolvedDotFileName o now)
            ((osPathSplitext (resolvedDotFileName o now)).1 ++ ".pdf"))
          notes) ++ "\n\x7d") ?_
    simp only [mkContent, mkFileHeader, String.append_assoc]

/-- C7 witness: the header values at a concrete rendered definition. -/
theorem render_header_reports_witness :
    ∃ c, (buildDotFile sampleObjFSM sampleNow "" true).2 = .ok c ∧
      ("States: " ++ toString sampleTrans.length ++ "  |  Transitions: " ++
        toString (transitionCount sampleTrans)).data <:+: c.data ∧
      ("Initial state: " ++ "idle" ++ "\n").data <:+: c.data :=
  @render_header_reports sampleObjFSM sampleNow "" sampleEntries sampleState sampleTrans
    "\nidle -> idle [label = \"go\"];" "idle"
    (by decide) (by decide) (by decide) (by decide) (Or.inl (by decide))

theorem uqCount_append (a b : List Char) :
    ∀ esc, uqCount esc (a ++ b) = uqCount esc a + uqCount (escState esc a) b := by
  induction a with
  | nil => intro esc; simp [uqCount, escState]
  | cons c rest ih =>
    intro esc
    by_cases hbs : c = '\\'
    · simp [uqCount, escState, hbs, ih]
    · by_cases hq : c = '"'
      · simp [uqCount, escState, hbs, hq, ih, Nat.add_assoc]
      · simp [uqCount, escState, hbs, hq, ih]

theorem escState_append (a b : List Char) :
    ∀ esc, escState esc (a ++ b) = escState (escState esc a) b := by
  induction a with
  | nil => intro esc; simp [escState]
  | cons c rest ih => intro esc; simp [escState, ih]

theorem escapeQuotesL_no_backslash {l : List Char} (h : ∀ ch ∈ l, ch ≠ '\\') :
    uqCount false (escapeQuotesL l) = 0 ∧ escState false (escapeQuotesL l) = false := by
  induction l with
  | nil => exact ⟨rfl, rfl⟩
  | cons c rest ih =>
    have hc : c ≠ '\\' := h c (by simp)
    have ih' := ih (fun ch hm => h ch (by simp [hm]))
    by_cases hq : c = '"'
    · subst hq
      simpa [escapeQuotesL, uqCount, escState] using ih'
    · simpa [escapeQuotesL, uqCount, escState, hq, hc] using ih'

theorem quotesEscapedFrom_escapeQuotesL (l : List Char) :
    ∀ b, quotesEscapedFrom b (escapeQuotesL l) = true := by
  induction l with
  | nil => intro b; rfl
  | cons c rest ih =>
    intro b
    by_cases hq : c = '"'
    · subst hq
      simp [escapeQuotesL, quotesEscapedFrom, ih]
    · simp [escapeQuotesL, quotesEscapedFrom, hq, ih]

theorem escState_newline : ∀ e : Bool, escState e ("\n".data) = false := fun _ => rfl

theorem uqCount_skip (x y z : List Char)
    (hx : escState false x = false)
    (hy0 : uqCount false y = 0) (hy1 : escState false y = false) :
    uqCount false (x ++ (y ++ z)) = uqCount false (x ++ z) := by
  rw [uqCount_append x (y ++ z) false, hx, uqCount_append y z false, hy0, hy1,
    uqCount_append x z false, hx, Nat.zero_add]

/-- C5 (amended): every double quote of the notes appears escaped as a
backslash-quote inside the emitted label, and for notes free of backslash
characters the rendered DOT text has exactly as many unescaped double
quotes as the same render with empty notes. -/
theorem render_notes_escaping (o : FSMObj) (now : Now) (notes : String)
    {entries st ts : List (String × Json)} {es : String} (init : String)
    (hd : o.FSM_as_Dict = Json.obj entries)
    (htv : lookup' entries "transitions" = some (Json.obj ts))
    (hsv : lookup' entries "state" = some (Json.obj st))
    (hes : edgeString ts = .ok es)
    (hinit : lookup' st "status" = some (Json.str init) ∨
             (lookup' st "status" = none ∧ init = "unknown"))
    (hne : notes ≠ "") (hnb : ∀ ch ∈ notes.data, ch ≠ '\\') :
    ∃ c c0, (buildDotFile o now notes true).2 = .ok c ∧
      (buildDotFile o now "" true).2 = .ok c0 ∧
      (escapeQuotes notes).data <:+: c.data ∧
      quotesEscaped (escapeQuotes notes).data = true ∧
      unescapedQuoteCount c = unescapedQuoteCount c0 := by
  have hinitd : initialStateDisplay (Json.obj st) = .ok init := by
    rcases hinit with h | ⟨h, hu⟩
    · simp [initialStateDisplay, h]
    · subst hu
      simp [initialStateDisplay, h]
  have hne' : (notes != "") = true := by simpa using hne
  have hb : (buildDotFile o now notes true).2 = .ok (mkContent
      (mkFileHeader o.name now.hms now.dmy (osPathBasename o.input_file_path)
        ts.length (transitionCount ts) init)
      es
      (mkLabelContent
        (mkFileHeader o.name now.hms now.dmy (osPathBasename o.input_file_path)
          ts.length (transitionCount ts) init)
        (mkDotCommand (resolvedDotFileName o now)
          ((osPathSplitext (resolvedDotFileName o now)).1 ++ ".pdf"))
        notes)) := by
    simp [buildDotFile, dotContent, pySubscript, hd, htv, hsv, hes, hinitd]
  have hb0 : (buildDotFile o now "" true).2 = .ok (mkContent
      (mkFileHeader o.name now.hms now.dmy (osPathBasename o.input_file_path)
        ts.length (transitionCount ts) init)
      es
      (mkLabelContent
        (mkFileHeader o.name now.hms now.dmy (osPathBasename o.input_file_path)
          ts.length (transitionCount ts) init)
        (mkDotCommand (resolvedDotFileName o now)
          ((osPathSplitext (resolvedDotFileName o now)).1 ++ ".pdf"))
        "")) := by
    simp [buildDotFile, dotContent, pySubscript, hd, htv, hsv, hes, hinitd]
  refine ⟨_, _, hb, hb0, ?_, ?_, ?_⟩
  · refine infix_data_of_split
      ("/*" ++ (mkFileHeader o.name now.hms now.dmy (osPathBasename o.input_file_path)
          ts.length (transitionCount ts) init) ++ "*/" ++ "\n" ++ layoutInfo ++ "\n" ++
        es ++ "\n" ++ "fontsize=8\nlabel = \"" ++
        ((mkFileHeader o.name now.hms now.dmy (osPathBasename o.input_file_path)
          ts.length (transitionCount ts) init) ++
         (mkDotCommand (resolvedDotFileName o now)
           ((osPathSplitext (resolvedDotFileName o now)).1 ++ ".pdf")) ++ "\n") ++
        "---" ++ "\n")
      (escapeQuotes notes)
      ("\n" ++ "\"" ++ "\n\x7d") ?_
    simp only [mkContent, mkFooter, mkLabelContent, hne', if_true, String.append_assoc]
  · exact quotesEscapedFrom_escapeQuotesL notes.data false
  · simp only [unescapedQuoteCount]
    have hdN : (mkContent
        (mkFileHeader o.name now.hms now.dmy (osPathBasename o.input_file_path)
          ts.length (transitionCount ts) init)
        es
        (mkLabelContent
          (mkFileHeader o.name now.hms now.dmy (osPathBasename o.input_file_path)
            ts.length (transitionCount ts) init)
          (mkDotCommand (resolvedDotFileName o now)
            ((osPathSplitext (resolvedDotFileName o now)).1 ++ ".pdf"))
          notes)).data =
        ("/*" ++ (mkFileHeader o.name now.hms now.dmy (osPathBasename o.input_file_path)
            ts.length (transitionCount ts) init) ++ "*/" ++ "\n" ++ layoutInfo ++ "\n" ++
          es ++ "\n" ++ "fontsize=8\nlabel = \"" ++
          (mkFileHeader o.name now.hms now.dmy (osPathBasename o.input_file_path)
            ts.length (transitionCount ts) init) ++
          (mkDotCommand (resolvedDotFileName o now)
            ((osPathSplitext (resolvedDotFileName o now)).1 ++ ".pdf")) ++ "\n").data ++
        (("---" ++ "\n" ++ escapeQuotes notes ++ "\n").data ++ ("\"" ++ "\n\x7d").data) := by
      simp only [mkContent, mkFooter, mkLabelContent, hne', if_true, String.data_append,
        List.append_assoc]
    have hd0 : (mkContent
        (mkFileHeader o.name now.hms now.dmy (osPathBasename o.input_file_path)
          ts.length (transitionCount ts) init)
        es
        (mkLabelContent
          (mkFileHeader o.name now.hms now.dmy (osPathBasename o.input_file_path)
            ts.length (transitionCount ts) init)
          (mkDotCommand (resolvedDotFileName o now)
            ((osPathSplitext (resolvedDotFileName o now)).1 ++ ".pdf"))
          "")).data =
        ("/*" ++ (mkFileHeader o.name now.hms now.dmy (osPathBasename o.input_file_path)
            ts.length (transitionCount ts) init) ++ "*/" ++ "\n" ++ layoutInfo ++ "\n" ++
          es ++ "\n" ++ "fontsize=8\nlabel = \"" ++
          (mkFileHeader o.name now.hms now.dmy (osPathBasename o.input_file_path)
            ts.length (transitionCount ts) init) ++
          (mkDotCommand (resolvedDotFileName o now)
            ((osPathSplitext (resolvedDotFileName o now)).1 ++ ".pdf")) ++ "\n").data ++
        (("\"" ++ "\n\x7d").data) := by
      simp only [mkContent, mkFooter, mkLabelContent, String.data_append,
        List.append_assoc, bne_self_eq_false, if_false, Bool.false_eq_true]
    rw [hdN, hd0]
    have hW : escState false
        ("/*" ++ (mkFileHeader o.name now.hms now.dmy (osPathBasename o.input_file_path)
            ts.length (transitionCount ts) init) ++ "*/" ++ "\n" ++ layoutInfo ++ "\n" ++
          es ++ "\n" ++ "fontsize=8\nlabel = \"" ++
          (mkFileHeader o.name now.hms now.dmy (osPathBasename o.input_file_path)
            ts.length (transitionCount ts) init) ++
          (mkDotCommand (resolvedDotFileName o now)
            ((osPathSplitext (resolvedDotFileName o now)).1 ++ ".pdf")) ++ "\n").data =
        false := by
      have hsplit : ("/*" ++ (mkFileHeader o.name now.hms now.dmy
            (osPathBasename o.input_file_path) ts.length (transitionCount ts) init) ++
          "*/" ++ "\n" ++ layoutInfo ++ "\n" ++ es ++ "\n" ++ "fontsize=8\nlabel = \"" ++
          (mkFileHeader o.name now.hms now.dmy (osPathBasename o.input_file_path)
            ts.length (transitionCount ts) init) ++
          (mkDotCommand (resolvedDotFileName o now)
            ((osPathSplitext (resolvedDotFileName o now)).1 ++ ".pdf")) ++ "\n").data =
          ("/*" ++ (mkFileHeader o.name now.hms now.dmy (osPathBasename o.input_file_path)
            ts.length (transitionCount ts) init) ++ "*/" ++ "\n" ++ layoutInfo ++ "\n" ++
          es ++ "\n" ++ "fontsize=8\nlabel = \"" ++
          (mkFileHeader o.name now.hms now.dmy (osPathBasename o.input_file_path)
            ts.length (transitionCount ts) init) ++
          (mkDotCommand (resolvedDotFileName o now)
            ((osPathSplitext (resolvedDotFileName o now)).1 ++ ".pdf"))).data ++
          "\n".data := by
        simp only [String.data_append, List.append_assoc]
      rw [hsplit, escState_append]
      exact escState_newline _
    have hseg : uqCount false (("---" ++ "\n" ++ escapeQuotes notes ++ "\n").data) = 0 ∧
        escState false (("---" ++ "\n" ++ escapeQuotes notes ++ "\n").data) = false := by
      obtain ⟨he0, he1⟩ := escapeQuotesL_no_backslash hnb
      have hsplit : (("---" ++ "\n" ++ escapeQuotes notes ++ "\n").data) =
          ("---" ++ "\n").data ++ ((escapeQuotes notes).data ++ "\n".data) := by
        simp only [String.data_append, List.append_assoc]
      constructor
      · rw [hsplit, uqCount_append ("---" ++ "\n").data _ false]
        have h1 : uqCount false (("---" ++ "\n").data) = 0 := rfl
        have h2 : escState false (("---" ++ "\n").data) = false := rfl
        rw [h1, h2, uqCount_append (escapeQuotes notes).data _ false]
        have h3 : (escapeQuotes notes).data = escapeQuotesL notes.data := rfl
        rw [h3, he0, he1]
        rfl
      · rw [hsplit, escState_append, escState_append]
        have h2 : escState false (("---" ++ "\n").data) = false := rfl
        rw [h2]
        have h3 : (escapeQuotes notes).data = escapeQuotesL notes.data := rfl
        rw [h3, he1]
        exact escState_newline _
    exact uqCount_skip _ _ _ hW hseg.1 hseg.2

/-- C5 witness: the amended escaping behavior at a concrete render. -/
theorem render_notes_escaping_witness :
    ∃ c c0, (buildDotFile sampleObjFSM sampleNow "say \"hi\"" true).2 = .ok c ∧
      (buildDotFile sampleObjFSM sampleNow "" true).2 = .ok c0 ∧
      (escapeQuotes "say \"hi\"").data <:+: c.data ∧
      quotesEscaped (escapeQuotes "say \"hi\"").data = true ∧
      unescapedQuoteCount c = unescapedQuoteCount c0 :=
  @render_notes_escaping sampleObjFSM sampleNow "say \"hi\"" sampleEntries sampleState
    sampleTrans "\nidle -> idle [label = \"go\"];" "idle"
    (by decide) (by decide) (by decide) (by decide) (Or.inl (by decide))
    (by decide) (by decide)

set_option maxRecDepth 40000 in
/-- C5 counterexample: notes consisting of a backslash and a double quote
render to a label with one more unescaped quote than the empty-notes
render, so the text is not well-formed for every possible notes string. -/
theorem render_notes_escaping_counterexample :
    Except.map unescapedQuoteCount (buildDotFile sampleObjFSM sampleNow "\\\"" true).2 =
      .ok 9 ∧
    Except.map unescapedQuoteCount (buildDotFile sampleObjFSM sampleNow "" true).2 =
      .ok 8 := by decide

set_option maxRecDepth 40000 in
/-- C4 counterexample: a valid definition whose trigger name embeds a
newline and an arrow renders to a DOT text with two `->` lines although
the sum of per-state trigger counts is one. -/
theorem render_edge_lines_counterexample :
    validate (Json.obj trickyEntries) = .ok [] ∧
    Except.map arrowLineCount (buildDotFile trickyObjFSM sampleNow "" true).2 = .ok 2 ∧
    transitionCount trickyTrans = 1 := by decide

theorem pySubscript_of_triggerEdge {td : Json} {t : String}
    (h : triggerEdge? td = some t) : pySubscript td "status" = .ok (Json.str t) := by
  cases td with
  | obj tde =>
    cases hl : lookup' tde "status" with
    | none => simp [triggerEdge?, hl] at h
    | some v =>
      cases v <;> simp [triggerEdge?, hl] at h
      subst h
      simp [pySubscript, hl]
  | null => simp [triggerEdge?] at h
  | bool b => simp [triggerEdge?] at h
  | num n => simp [triggerEdge?] at h
  | str s => simp [triggerEdge?] at h
  | arr a => simp [triggerEdge?] at h

theorem edgesText_append (a b : List (String × String × String)) :
    edgesText (a ++ b) = edgesText a ++ edgesText b := by
  induction a with
  | nil => simp [edgesText]
  | cons e rest ih =>
    obtain ⟨src, tgt, trig⟩ := e
    simp [edgesText, ih, String.append_assoc]

theorem innerEdges_of_edgesOfInner {src : String} {te : List (String × Json)}
    {e1 : List (String × String × String)} (h : edgesOfInner src te = some e1) :
    innerEdges src te = .ok (edgesText e1) ∧ e1.length = te.length := by
  induction te generalizing e1 with
  | nil =>
    rw [edgesOfInner] at h
    cases h
    exact ⟨rfl, rfl⟩
  | cons q rest ih =>
    obtain ⟨trig, td⟩ := q
    rw [edgesOfInner] at h
    cases ht : triggerEdge? td with
    | none => rw [ht] at h; cases h
    | some t =>
      rw [ht] at h
      cases hr : edgesOfInner src rest with
      | none => rw [hr] at h; cases h
      | some r =>
        rw [hr] at h
        cases h
        obtain ⟨ih1, ih2⟩ := ih hr
        constructor
        · simp [innerEdges, pySubscript_of_triggerEdge ht, ih1, edgesText]
        · simp [ih2]

theorem edgeString_of_edgesOf {ts : List (String × Json)}
    {edges : List (String × String × String)} (h : edgesOf ts = some edges) :
    edgeString ts = .ok (edgesText edges) ∧ edges.length = transitionCount ts := by
  induction ts generalizing edges with
  | nil =>
    rw [edgesOf] at h
    cases h
    exact ⟨rfl, rfl⟩
  | cons p rest ih =>
    obtain ⟨src, trigs⟩ := p
    cases trigs with
    | obj te =>
      rw [edgesOf] at h
      cases he : edgesOfInner src te with
      | none => rw [he] at h; cases h
      | some e1 =>
        rw [he] at h
        cases hr : edgesOf rest with
        | none => rw [hr] at h; cases h
        | some r =>
          rw [hr] at h
          cases h
          obtain ⟨hi1, hi2⟩ := innerEdges_of_edgesOfInner he
          obtain ⟨ih1, ih2⟩ := ih hr
          constructor
          · simp [edgeString, hi1, ih1, edgesText_append]
          · simp [transitionCount, hi2, ih2]
    | null => simp [edgesOf] at h
    | bool b => simp [edgesOf] at h
    | num n => simp [edgesOf] at h
    | str s => simp [edgesOf] at h
    | arr a => simp [edgesOf] at h

theorem edgesText_data (edges : List (String × String × String)) :
    (edgesText edges).data = edgesChunks edges := by
  induction edges with
  | nil => rfl
  | cons e rest ih =>
    obtain ⟨src, tgt, trig⟩ := e
    have hn : ("\n" : String).data = ['\n'] := rfl
    simp [edgesText, edgesChunks, mkEdgeStmt, edgeLineChars, String.data_append,
      List.append_assoc, ih, hn]

theorem splitLines_ne_nil (l : List Char) : splitLines l ≠ [] := by
  cases l with
  | nil => simp [splitLines]
  | cons c rest =>
    cases h : splitLines rest with
    | nil => simp [splitLines, h]
    | cons m ms =>
      by_cases hc : c = '\n' <;> simp [splitLines, h, hc]

theorem splitLines_cons_eq {c : Char} {rest m0 : List Char} {ms0 : List (List Char)}
    (hr : splitLines rest = m0 :: ms0) :
    splitLines (c :: rest) = if c = '\n' then [] :: m0 :: ms0 else (c :: m0) :: ms0 := by
  rw [splitLines, hr]

theorem splitLines_head_prefix :
    ∀ (l : List Char) (m : List Char) (ms : List (List Char)),
      splitLines l = m :: ms → m <+: l := by
  intro l
  induction l with
  | nil =>
    intro m ms h
    rw [splitLines] at h
    cases h
    exact List.nil_prefix
  | cons c rest ih =>
    intro m ms h
    cases hr : splitLines rest with
    | nil => exact absurd hr (splitLines_ne_nil rest)
    | cons m0 ms0 =>
      rw [splitLines_cons_eq hr] at h
      by_cases hc : c = '\n'
      · rw [if_pos hc] at h
        injection h with h1 h2
        subst h1
        exact List.nil_prefix
      · rw [if_neg hc] at h
        injection h with h1 h2
        subst h1
        exact (List.cons_prefix_cons).mpr ⟨rfl, ih m0 ms0 hr⟩

theorem mem_splitLines_infixOf :
    ∀ (l : List Char) (m : List Char), m ∈ splitLines l → m <:+: l := by
  intro l
  induction l with
  | nil =>
    intro m hm
    rw [splitLines] at hm
    simp at hm
    subst hm
    exact List.nil_infix
  | cons c rest ih =>
    intro m hm
    cases hr : splitLines rest with
    | nil => exact absurd hr (splitLines_ne_nil rest)
    | cons m0 ms0 =>
      rw [splitLines_cons_eq hr] at hm
      by_cases hc : c = '\n'
      · rw [if_pos hc] at hm
        rcases List.mem_cons.mp hm with h | h
        · subst h
          exact List.nil_infix
        · exact List.infix_cons (ih m (hr ▸ h))
      · rw [if_neg hc] at hm
        rcases List.mem_cons.mp hm with h | h
        · subst h
          exact ((List.cons_prefix_cons).mpr
            ⟨rfl, splitLines_head_prefix rest m0 ms0 hr⟩).isInfix
        · exact List.infix_cons (ih m (by rw [hr]; exact List.mem_cons_of_mem m0 h))

theorem splitLines_append_newline :
    ∀ (x y : List Char), splitLines (x ++ '\n' :: y) = splitLines x ++ splitLines y := by
  intro x y
  induction x with
  | nil =>
    cases hy : splitLines y with
    | nil => exact absurd hy (splitLines_ne_nil y)
    | cons m ms =>
      rw [List.nil_append, splitLines_cons_eq hy, if_pos rfl]
      simp [splitLines, hy]
  | cons c x' ih =>
    cases hx : splitLines x' with
    | nil => exact absurd hx (splitLines_ne_nil x')
    | cons m0 ms0 =>
      cases hy : splitLines y with
      | nil => exact absurd hy (splitLines_ne_nil y)
      | cons k ks =>
        have hih : splitLines (x' ++ '\n' :: y) = m0 :: (ms0 ++ k :: ks) := by
          rw [ih, hx, hy]
          rfl
        by_cases hc : c = '\n'
        · simp [List.cons_append, splitLines_cons_eq hih, splitLines_cons_eq hx, hy, hc]
        · simp [List.cons_append, splitLines_cons_eq hih, splitLines_cons_eq hx, hy, hc]

theorem splitLines_no_newline {l : List Char} (h : ∀ c ∈ l, c ≠ '\n') :
    splitLines l = [l] := by
  induction l with
  | nil => rfl
  | cons c rest ih =>
    have hc : c ≠ '\n' := h c (by simp)
    rw [splitLines_cons_eq (ih (fun x hx => h x (by simp [hx]))), if_neg hc]

theorem isInfixB_iff {pat l : List Char} : isInfixB pat l = true ↔ pat <:+: l := by
  induction l with
  | nil => simp [isInfixB, List.infix_nil, List.isEmpty_iff]
  | cons c rest ih =>
    rw [isInfixB, Bool.or_eq_true, List.isPrefixOf_iff_prefix, ih, List.infix_cons_iff]

theorem hasArrow_false_of_line {l m : List Char} (h : isInfixB arrowL l = false)
    (hm : m ∈ splitLines l) : hasArrow m = false := by
  cases ha : hasArrow m with
  | false => rfl
  | true =>
    rw [hasArrow, isInfixB_iff] at ha
    have : arrowL <:+: l := ha.trans (mem_splitLines_infixOf l m hm)
    rw [← isInfixB_iff] at this
    rw [this] at h
    cases h

theorem hasArrow_edgeLine (e : String × String × String) :
    hasArrow (edgeLineChars e) = true := by
  obtain ⟨src, tgt, trig⟩ := e
  rw [hasArrow, isInfixB_iff]
  refine ⟨src.data ++ [' '], [' '] ++ (tgt ++ " [label = \"" ++ trig ++ "\"];").data, ?_⟩
  simp [edgeLineChars, arrowL, String.data_append]

theorem filter_hasArrow_len_zero {ls : List (List Char)}
    (h : ∀ m ∈ ls, hasArrow m = false) : (ls.filter hasArrow).length = 0 := by
  have : ls.filter hasArrow = [] := List.filter_eq_nil_iff.mpr (fun a ha => by simp [h a ha])
  simp [this]

theorem splitLines_append_no_newline {A B m : List Char} {ms : List (List Char)}
    (hA : ∀ c ∈ A, c ≠ '\n') (hB : splitLines B = m :: ms) :
    splitLines (A ++ B) = (A ++ m) :: ms := by
  induction A with
  | nil => simpa using hB
  | cons c A' ih =>
    have hc : c ≠ '\n' := hA c (by simp)
    have ih' := ih (fun x hx => hA x (by simp [hx]))
    rw [List.cons_append, splitLines_cons_eq ih', if_neg hc, List.cons_append]

theorem splitLines_chunks :
    ∀ (edges : List (String × String × String)) (post : List Char),
      (∀ e ∈ edges, ∀ ch ∈ edgeLineChars e, ch ≠ '\n') →
      splitLines (edgesChunks edges ++ '\n' :: post) =
        [] :: (edges.map edgeLineChars ++ splitLines post) := by
  intro edges
  induction edges with
  | nil =>
    intro post hn
    rw [edgesChunks, List.nil_append]
    cases hp : splitLines post with
    | nil => exact absurd hp (splitLines_ne_nil post)
    | cons m ms =>
      rw [splitLines_cons_eq hp, if_pos rfl]
      simp
  | cons e rest ih =>
    intro post hn
    have hline : ∀ ch ∈ edgeLineChars e, ch ≠ '\n' := hn e (by simp)
    have ihr := ih post (fun x hx => hn x (by simp [hx]))
    rw [edgesChunks, List.cons_append, List.append_assoc]
    have hin : splitLines (edgeLineChars e ++ (edgesChunks rest ++ '\n' :: post)) =
        (edgeLineChars e ++ []) :: (rest.map edgeLineChars ++ splitLines post) :=
      splitLines_append_no_newline hline ihr
    rw [splitLines_cons_eq hin, if_pos rfl]
    simp

/-- C4 (amended): for a rendering whose transition records all resolve,
Render emits exactly one edge statement per transition in the mapping's
iteration order, and if the state, target and trigger names contain no
newline and neither the header comment with the preamble nor the label
footer contains `->`, then the number of lines containing `->` in the DOT
text equals the sum of per-state trigger counts. -/
theorem render_edge_lines (o : FSMObj) (now : Now) (notes : String)
    {entries st ts : List (String × Json)} {edges : List (String × String × String)}
    (init : String)
    (hd : o.FSM_as_Dict = Json.obj entries)
    (htv : lookup' entries "transitions" = some (Json.obj ts))
    (hsv : lookup' entries "state" = some (Json.obj st))
    (hedges : edgesOf ts = some edges)
    (hinit : lookup' st "status" = some (Json.str init) ∨
             (lookup' st "status" = none ∧ init = "unknown"))
    (hn : ∀ e ∈ edges, ∀ ch ∈ edgeLineChars e, ch ≠ '\n')
    (hPre : isInfixB arrowL ("/*" ++ mkFileHeader o.name now.hms now.dmy
        (osPathBasename o.input_file_path) ts.length (transitionCount ts) init ++
        "*/" ++ "\n" ++ layoutInfo).data = false)
    (hPost : isInfixB arrowL (mkFooter (mkLabelContent
        (mkFileHeader o.name now.hms now.dmy (osPathBasename o.input_file_path)
          ts.length (transitionCount ts) init)
        (mkDotCommand (resolvedDotFileName o now)
          ((osPathSplitext (resolvedDotFileName o now)).1 ++ ".pdf"))
        notes) ++ "\n\x7d").data = false) :
    ∃ c, (buildDotFile o now notes true).2 = .ok c ∧
      edgeString ts = .ok (edgesText edges) ∧
      arrowLineCount c = transitionCount ts := by
  obtain ⟨hes, hlen⟩ := edgeString_of_edgesOf hedges
  have hinitd : initialStateDisplay (Json.obj st) = .ok init := by
    rcases hinit with h | ⟨h, hu⟩
    · simp [initialStateDisplay, h]
    · subst hu
      simp [initialStateDisplay, h]
  have hb : (buildDotFile o now notes true).2 = .ok (mkContent
      (mkFileHeader o.name now.hms now.dmy (osPathBasename o.input_file_path)
        ts.length (transitionCount ts) init)
      (edgesText edges)
      (mkLabelContent
        (mkFileHeader o.name now.hms now.dmy (osPathBasename o.input_file_path)
          ts.length (transitionCount ts) init)
        (mkDotCommand (resolvedDotFileName o now)
          ((osPathSplitext (resolvedDotFileName o now)).1 ++ ".pdf"))
        notes)) := by
    simp [buildDotFile, dotContent, pySubscript, hd, htv, hsv, hes, hinitd]
  refine ⟨_, hb, hes, ?_⟩
  conv_rhs => rw [← hlen]
  rw [arrowLineCount]
  have hnl : ("\n" : String).data = ['\n'] := rfl
  have hdeco : (mkContent
      (mkFileHeader o.name now.hms now.dmy (osPathBasename o.input_file_path)
        ts.length (transitionCount ts) init)
      (edgesText edges)
      (mkLabelContent
        (mkFileHeader o.name now.hms now.dmy (osPathBasename o.input_file_path)
          ts.length (transitionCount ts) init)
        (mkDotCommand (resolvedDotFileName o now)
          ((osPathSplitext (resolvedDotFileName o now)).1 ++ ".pdf"))
        notes)).data =
      ("/*" ++ mkFileHeader o.name now.hms now.dmy
        (osPathBasename o.input_file_path) ts.length (transitionCount ts) init ++
        "*/" ++ "\n" ++ layoutInfo).data ++ '\n' ::
        (edgesChunks edges ++ '\n' :: (mkFooter (mkLabelContent
          (mkFileHeader o.name now.hms now.dmy (osPathBasename o.input_file_path)
            ts.length (transitionCount ts) init)
          (mkDotCommand (resolvedDotFileName o now)
            ((osPathSplitext (resolvedDotFileName o now)).1 ++ ".pdf"))
          notes) ++ "\n\x7d").data) := by
    simp only [mkContent, String.data_append, List.append_assoc, edgesText_data, hnl,
      List.singleton_append, List.cons_append, List.nil_append]
  rw [hdeco, splitLines_append_newline, List.filter_append, List.length_append]
  have h1 : ((splitLines ("/*" ++ mkFileHeader o.name now.hms now.dmy
      (osPathBasename o.input_file_path) ts.length (transitionCount ts) init ++
      "*/" ++ "\n" ++ layoutInfo).data).filter hasArrow).length = 0 :=
    filter_hasArrow_len_zero (fun m hm => hasArrow_false_of_line hPre hm)
  rw [h1, splitLines_chunks edges _ hn, List.filter_cons]
  have h0 : hasArrow ([] : List Char) = false := rfl
  rw [h0]
  simp only [if_false, Bool.false_eq_true, List.filter_append, List.length_append]
  have h2 : (edges.map edgeLineChars).filter hasArrow = edges.map edgeLineChars := by
    refine List.filter_eq_self.mpr ?_
    intro a ha
    obtain ⟨e, he, rfl⟩ := List.mem_map.mp ha
    exact hasArrow_edgeLine e
  have h3 : ((splitLines (mkFooter (mkLabelContent
      (mkFileHeader o.name now.hms now.dmy (osPathBasename o.input_file_path)
        ts.length (transitionCount ts) init)
      (mkDotCommand (resolvedDotFileName o now)
        ((osPathSplitext (resolvedDotFileName o now)).1 ++ ".pdf"))
      notes) ++ "\n\x7d").data).filter hasArrow).length = 0 :=
    filter_hasArrow_len_zero (fun m hm => hasArrow_false_of_line hPost hm)
  rw [h2, h3, List.length_map]
  omega

set_option maxRecDepth 40000 in
/-- C4 witness: the amended edge-line count at a concrete render. -/
theorem render_edge_lines_witness :
    ∃ c, (buildDotFile sampleObjFSM sampleNow "" true).2 = .ok c ∧
      edgeString sampleTrans = .ok (edgesText [("idle", "idle", "go")]) ∧
      arrowLineCount c = transitionCount sampleTrans :=
  @render_edge_lines sampleObjFSM sampleNow "" sampleEntries sampleState sampleTrans
    [("idle", "idle", "go")] "idle" (by decide) (by decide) (by decide) (by decide)
    (Or.inl (by decide)) (by decide) (by decide) (by decide)
